import Mathlib

/-!
Shallow embedding of the `yourtestsrv` network fault-injection test harness
(Python), covering the MQTT packet codec and per-packet handlers
(`yourtestsrv/mqtt_server.py`), the HTTP request-line parser, response
serializer and per-connection step (`yourtestsrv/http_server.py`), and the
UDP datagram handler (`yourtestsrv/udp_server.py`).

Bytes are modelled as `Nat` (values below 256 where the code constructs
them), byte strings as `List Nat`.  Python exceptions that can escape a
handler are modelled with `Except`.
-/

namespace YourTestSrv

/-! ## MQTT remaining-length codec

`_build_packet` (mqtt_server.py, lines 36-48): the length-encoding loop
  while True:
    b = length % 128
    length //= 128
    if length > 0: b |= 0x80
    length_bytes += bytes([b])
    if length == 0: break
-/

/-- The remaining-length encoding loop of `_build_packet`: base 128, low 7
bits of magnitude per byte, continuation bit 0x80 while more bytes follow. -/
def encodeRemLen (n : Nat) : List Nat :=
  if h : n / 128 > 0 then (n % 128 ||| 0x80) :: encodeRemLen (n / 128)
  else [n % 128]
decreasing_by
  exact Nat.div_lt_self (by omega) (by omega)

/-- The remaining-length decoding loop of `MQTTServer._read_packet`
(mqtt_server.py, lines 130-140):
  length = 0; multiplier = 1
  while True:
    b = next byte            (None from the stream -> packet abandoned)
    length += (b & 127) * multiplier
    multiplier *= 128
    if (b & 128) == 0: break
Returns the decoded length together with the unconsumed rest of the
stream; `none` models `_recv_exact` hitting end of stream. -/
def decodeRemLen : List Nat → Nat → Nat → Option (Nat × List Nat)
  | [], _, _ => none
  | b :: rest, acc, mult =>
    let acc := acc + (b &&& 127) * mult
    if b &&& 128 == 0 then some (acc, rest)
    else decodeRemLen rest acc (mult * 128)

/-- `struct.pack` with format `>H`: big-endian 16-bit. -/
def pack16 (n : Nat) : List Nat := [n / 256, n % 256]

/-- `_build_packet` (mqtt_server.py, lines 36-48). -/
def buildPacket (packetType flags : Nat) (payload : List Nat) : List Nat :=
  ((packetType <<< 4) ||| flags) :: encodeRemLen payload.length ++ payload

lemma and_127_of_lt {m : Nat} (h : m < 128) : m &&& 127 = m := by
  have : ∀ k < 128, k &&& 127 = k := by decide
  exact this m h

lemma and_128_of_lt {m : Nat} (h : m < 128) : m &&& 128 = 0 := by
  have : ∀ k < 128, k &&& 128 = 0 := by decide
  exact this m h

lemma or_128_and_127 {m : Nat} (h : m < 128) : (m ||| 128) &&& 127 = m := by
  have : ∀ k < 128, (k ||| 128) &&& 127 = k := by decide
  exact this m h

lemma or_128_and_128 {m : Nat} (h : m < 128) : (m ||| 128) &&& 128 = 128 := by
  have : ∀ k < 128, (k ||| 128) &&& 128 = 128 := by decide
  exact this m h

lemma decodeRemLen_encodeRemLen (n : Nat) :
    ∀ (acc mult : Nat) (rest : List Nat),
      decodeRemLen (encodeRemLen n ++ rest) acc mult = some (acc + n * mult, rest) := by
  induction n using Nat.strong_induction_on with
  | _ n ih =>
    intro acc mult rest
    by_cases h : n / 128 > 0
    · rw [encodeRemLen]
      simp only [h, dite_true, List.cons_append, decodeRemLen]
      rw [or_128_and_127 (Nat.mod_lt _ (by omega)),
          or_128_and_128 (Nat.mod_lt _ (by omega))]
      simp only [Nat.reduceBEq, Bool.false_eq_true, if_false]
      rw [ih (n / 128) (Nat.div_lt_self (by omega) (by omega))]
      have hmod : 128 * (n / 128) + n % 128 = n := Nat.div_add_mod n 128
      congr 2
      calc acc + n % 128 * mult + n / 128 * (mult * 128)
          = acc + (128 * (n / 128) + n % 128) * mult := by ring
        _ = acc + n * mult := by rw [hmod]
    · rw [encodeRemLen]
      simp only [h, dite_false, List.cons_append, List.nil_append, decodeRemLen]
      have hn : n < 128 := by omega
      rw [Nat.mod_eq_of_lt hn, and_127_of_lt hn, and_128_of_lt hn]
      simp

/-! ## MQTT string decoding and the CONNECT / PUBLISH handlers

`_read_mqtt_string` (mqtt_server.py, lines 26-33) returns `(None, pos)`
when the buffer is too short, else the string and the advanced position.
The Python code decodes the bytes as UTF-8 with `errors='replace'`; the
claims use the string only as an identifier, so the raw bytes stand for it
here. -/

/-- `_read_mqtt_string` (mqtt_server.py, lines 26-33). -/
def readMqttStr (data : List Nat) (pos : Nat) : Option (List Nat) × Nat :=
  if data.length < pos + 2 then (none, pos)
  else
    let len := 256 * data.getD pos 0 + data.getD (pos + 1) 0
    if data.length < pos + 2 + len then (none, pos + 2)
    else (some ((data.drop (pos + 2)).take len), pos + 2 + len)

/-- The 2-byte-big-endian-length-prefixed wire form of an MQTT string
(`struct.pack('>H', len(b)) + b`). -/
def mqttStrBytes (s : List Nat) : List Nat :=
  (s.length / 256) :: (s.length % 256) :: s

/-- Python exceptions that can escape the per-packet handlers:
`IndexError` from `payload[pos]`, `struct.error` from
`struct.unpack_from('>H', payload, pos)` on a short buffer. -/
inductive PyErr where
  | indexError
  | structError
deriving DecidableEq

/-- Effects of `MQTTServer._handle_connect`: the session table after the
call (client id ↦ connection id), the bytes sent in reply, and the
`on_connect` callback invocations `(client_id, clean_session)`. -/
structure ConnectResult where
  clients : List Nat → Option Nat
  reply : Option (List Nat)
  onConnectCalls : List (List Nat × Bool)

/-- `MQTTServer._handle_connect` (mqtt_server.py, lines 198-216).
`conn` is the connection's identity, `clients` the session table,
`hasOnConnect` whether the configured handler exposes `on_connect`. -/
def handleConnect (hasOnConnect : Bool) (conn : Nat)
    (clients : List Nat → Option Nat) (payload : List Nat) :
    Except PyErr ConnectResult :=
  match readMqttStr payload 0 with
  | (none, _) => .ok ⟨clients, none, []⟩
  | (some _protocolName, pos) =>
    match payload[pos]? with
    | none => .error .indexError
    | some _protocolLevel =>
      let pos := pos + 1
      match payload[pos]? with
      | none => .error .indexError
      | some connectFlags =>
        let pos := pos + 1
        if payload.length < pos + 2 then .error .structError
        else
          let pos := pos + 2
          match readMqttStr payload pos with
          | (none, _) => .ok ⟨clients, none, []⟩
          | (some clientId, _) =>
            let cleanSession := connectFlags &&& 0x02 != 0
            .ok ⟨fun k => if k = clientId then some conn else clients k,
                 some (buildPacket 2 0 [0, 0]),
                 if hasOnConnect then [(clientId, cleanSession)] else []⟩

/-- Effects of `MQTTServer._handle_publish`: the retained-message map after
the call, the `on_publish` callback invocations
`(topic, qos, payload, packet_id)`, and the bytes sent in reply. -/
structure PublishResult where
  retained : List Nat → Option (List Nat)
  onPublishCalls : List (List Nat × Nat × List Nat × Nat)
  reply : Option (List Nat)

/-- `MQTTServer._handle_publish` (mqtt_server.py, lines 218-238). -/
def handlePublish (retainMessages hasOnPublish : Bool)
    (retained : List Nat → Option (List Nat))
    (flags : Nat) (payload : List Nat) :
    Except PyErr PublishResult :=
  match readMqttStr payload 0 with
  | (none, _) => .ok ⟨retained, [], none⟩
  | (some topic, pos) =>
    let qos := (flags >>> 1) &&& 0x03
    let pidPos : Except PyErr (Nat × Nat) :=
      if qos > 0 then
        if payload.length < pos + 2 then .error .structError
        else .ok (256 * payload.getD pos 0 + payload.getD (pos + 1) 0, pos + 2)
      else .ok (0, pos)
    match pidPos with
    | .error e => .error e
    | .ok (packetId, pos) =>
      let msgPayload := payload.drop pos
      let retained :=
        if retainMessages ∧ msgPayload ≠ [] then
          fun k => if k = topic then some msgPayload else retained k
        else retained
      let calls := if hasOnPublish then [(topic, qos, msgPayload, packetId)] else []
      let reply :=
        if qos = 1 then some (buildPacket 4 0 (pack16 packetId))
        else if qos = 2 then some (buildPacket 5 0 (pack16 packetId))
        else none
      .ok ⟨retained, calls, reply⟩

/-- Reading a length-prefixed string out of a well-formed buffer: the
string bytes come back intact and the position lands right after them. -/
lemma readMqttStr_mqttStrBytes (pre s rest : List Nat) :
    readMqttStr (pre ++ mqttStrBytes s ++ rest) pre.length =
      (some s, pre.length + 2 + s.length) := by
  have hlen : (pre ++ mqttStrBytes s ++ rest).length =
      pre.length + (2 + s.length + rest.length) := by
    simp [mqttStrBytes]; omega
  have hgd : ∀ i d, (pre ++ (mqttStrBytes s ++ rest)).getD (pre.length + i) d =
      (mqttStrBytes s ++ rest).getD i d := by
    intro i d
    simp [List.getD_eq_getElem?_getD, List.getElem?_append_right (Nat.le_add_right _ _)]
  rw [readMqttStr]
  rw [List.append_assoc] at hlen ⊢
  have h0 : pre.length + 0 = pre.length := rfl
  have h1 : (pre ++ (mqttStrBytes s ++ rest)).getD pre.length 0 = s.length / 256 := by
    rw [← h0, hgd]; rfl
  have h2 : (pre ++ (mqttStrBytes s ++ rest)).getD (pre.length + 1) 0 = s.length % 256 := by
    rw [hgd]; rfl
  rw [if_neg (by omega)]
  simp only [h1, h2]
  have hrec : 256 * (s.length / 256) + s.length % 256 = s.length :=
    Nat.div_add_mod _ _
  rw [hrec, if_neg (by omega)]
  have hdrop : (pre ++ (mqttStrBytes s ++ rest)).drop (pre.length + 2) = s ++ rest := by
    have : pre ++ (mqttStrBytes s ++ rest) =
        (pre ++ [s.length / 256, s.length % 256]) ++ (s ++ rest) := by
      simp [mqttStrBytes]
    rw [this, List.drop_left' (by simp)]
  rw [hdrop, List.take_left]

/-- The variable header + payload of a well-formed CONNECT packet:
protocol name, protocol level, connect flags, 2-byte keep-alive, client
identifier. -/
def connectPayload (proto : List Nat) (level cflags k1 k2 : Nat)
    (cid : List Nat) : List Nat :=
  mqttStrBytes proto ++ [level, cflags, k1, k2] ++ mqttStrBytes cid

/-- The variable header + payload of a well-formed PUBLISH packet: topic,
then (only when QoS, bits 1-2 of the fixed-header flags, is nonzero) a
2-byte packet identifier, then the message payload. -/
def publishPayload (topic : List Nat) (flags p1 p2 : Nat)
    (msg : List Nat) : List Nat :=
  mqttStrBytes topic ++ (if (flags >>> 1) &&& 0x03 > 0 then [p1, p2] else []) ++ msg

lemma handleConnect_connectPayload (hasCb : Bool) (conn : Nat)
    (clients : List Nat → Option Nat) (proto : List Nat)
    (level cflags k1 k2 : Nat) (cid : List Nat) :
    handleConnect hasCb conn clients (connectPayload proto level cflags k1 k2 cid) =
      .ok ⟨fun k => if k = cid then some conn else clients k,
           some (buildPacket 2 0 [0, 0]),
           if hasCb then [(cid, cflags &&& 0x02 != 0)] else []⟩ := by
  have h1 : readMqttStr (connectPayload proto level cflags k1 k2 cid) 0 =
      (some proto, 2 + proto.length) := by
    have h := readMqttStr_mqttStrBytes [] proto ([level, cflags, k1, k2] ++ mqttStrBytes cid)
    simpa [connectPayload, List.append_assoc] using h
  have hsplit : connectPayload proto level cflags k1 k2 cid =
      mqttStrBytes proto ++ ([level, cflags, k1, k2] ++ mqttStrBytes cid) := by
    simp [connectPayload, List.append_assoc]
  have hplen : (mqttStrBytes proto).length = 2 + proto.length := by
    simp [mqttStrBytes]; omega
  have h2 : (connectPayload proto level cflags k1 k2 cid)[2 + proto.length]? =
      some level := by
    rw [hsplit, List.getElem?_append_right (by omega), hplen]
    simp
  have h3 : (connectPayload proto level cflags k1 k2 cid)[2 + proto.length + 1]? =
      some cflags := by
    rw [hsplit, List.getElem?_append_right (by omega), hplen]
    simp
  have hlen : (connectPayload proto level cflags k1 k2 cid).length =
      2 + proto.length + 4 + (2 + cid.length) := by
    simp [connectPayload, mqttStrBytes]; omega
  have h4 : readMqttStr (connectPayload proto level cflags k1 k2 cid)
      (2 + proto.length + 1 + 1 + 2) = (some cid, 2 + proto.length + 6 + cid.length) := by
    have h := readMqttStr_mqttStrBytes (mqttStrBytes proto ++ [level, cflags, k1, k2])
      cid []
    have hpre : (mqttStrBytes proto ++ [level, cflags, k1, k2]).length =
        2 + proto.length + 1 + 1 + 2 := by simp [mqttStrBytes]; omega
    rw [hpre] at h
    have heq : (mqttStrBytes proto ++ [level, cflags, k1, k2]) ++ mqttStrBytes cid ++ [] =
        connectPayload proto level cflags k1 k2 cid := by
      simp [connectPayload]
    rw [heq] at h
    rw [h]
  rw [handleConnect, h1]
  simp only [h2, h3]
  rw [if_neg (by omega), h4]

lemma handlePublish_publishPayload (retain hasCb : Bool)
    (retained : List Nat → Option (List Nat))
    (topic : List Nat) (flags p1 p2 : Nat) (msg : List Nat) :
    handlePublish retain hasCb retained flags (publishPayload topic flags p1 p2 msg) =
      .ok ⟨(if retain ∧ msg ≠ [] then
              fun k => if k = topic then some msg else retained k
            else retained),
           (if hasCb then
              [(topic, (flags >>> 1) &&& 0x03, msg,
                if (flags >>> 1) &&& 0x03 > 0 then 256 * p1 + p2 else 0)]
            else []),
           (if (flags >>> 1) &&& 0x03 = 1 then
              some (buildPacket 4 0 (pack16 (256 * p1 + p2)))
            else if (flags >>> 1) &&& 0x03 = 2 then
              some (buildPacket 5 0 (pack16 (256 * p1 + p2)))
            else none)⟩ := by
  have h1 : readMqttStr (publishPayload topic flags p1 p2 msg) 0 =
      (some topic, 2 + topic.length) := by
    have h := readMqttStr_mqttStrBytes [] topic
      ((if (flags >>> 1) &&& 0x03 > 0 then [p1, p2] else []) ++ msg)
    simpa [publishPayload, List.append_assoc] using h
  have htlen : (mqttStrBytes topic).length = 2 + topic.length := by
    simp [mqttStrBytes]; omega
  rw [handlePublish, h1]
  by_cases hq : (flags >>> 1) &&& 0x03 > 0
  · have hsplit : publishPayload topic flags p1 p2 msg =
        mqttStrBytes topic ++ ([p1, p2] ++ msg) := by
      simp [publishPayload, hq, List.append_assoc]
    have hlen : (publishPayload topic flags p1 p2 msg).length =
        2 + topic.length + 2 + msg.length := by
      rw [hsplit]; simp [mqttStrBytes]; omega
    have hg1 : (publishPayload topic flags p1 p2 msg).getD (2 + topic.length) 0 = p1 := by
      rw [hsplit, List.getD_eq_getElem?_getD,
        List.getElem?_append_right (by omega), htlen]
      simp
    have hg2 : (publishPayload topic flags p1 p2 msg).getD (2 + topic.length + 1) 0 = p2 := by
      rw [hsplit, List.getD_eq_getElem?_getD,
        List.getElem?_append_right (by omega), htlen]
      simp
    have hdrop : (publishPayload topic flags p1 p2 msg).drop (2 + topic.length + 2) = msg := by
      rw [hsplit, show mqttStrBytes topic ++ ([p1, p2] ++ msg) =
        (mqttStrBytes topic ++ [p1, p2]) ++ msg by simp,
        List.drop_left' (by simp [mqttStrBytes]; omega)]
    simp only [hq, if_pos, if_neg (by omega : ¬ (publishPayload topic flags p1 p2 msg).length <
      2 + topic.length + 2), hg1, hg2]
    simp only [hdrop]
  · have hq0 : (flags >>> 1) &&& 0x03 = 0 := by omega
    have hsplit : publishPayload topic flags p1 p2 msg =
        mqttStrBytes topic ++ msg := by
      simp [publishPayload, hq0]
    have hdrop : (publishPayload topic flags p1 p2 msg).drop (2 + topic.length) = msg := by
      rw [hsplit, List.drop_left' (by simp [mqttStrBytes]; omega)]
    simp only [hq0]
    simp only [show ¬ (0 : Nat) > 0 by omega, if_false]
    simp [hdrop, hq0]

/-! ## HTTP request-line parsing, response serialization, connection step
(http_server.py). -/

/-- Python `str.split(' ', ...)`, one step: split at the first space, or
`none` when the string holds no space.  Empty pieces are kept, adjacent
separators are not collapsed. -/
def splitFirstSpace : List Char → Option (List Char × List Char)
  | [] => none
  | c :: rest =>
    if c = ' ' then some ([], rest)
    else
      match splitFirstSpace rest with
      | none => none
      | some (a, b) => some (c :: a, b)

/-- Python `line.split(' ', maxsplit)`. -/
def pySplitSpace : List Char → Nat → List (List Char)
  | s, 0 => [s]
  | s, n + 1 =>
    match splitFirstSpace s with
    | none => [s]
    | some (a, b) => a :: pySplitSpace b n

/-- The request-line handling of `HTTPServer._parse_request`
(http_server.py, lines 138-142): `parts = line.split(' ', 2)`; unless that
yields exactly 3 parts a `ValueError` is raised; otherwise
`method, path, version = parts`. -/
def parseRequestLine (line : List Char) :
    Except Unit (List Char × List Char × List Char) :=
  match pySplitSpace line 2 with
  | [m, p, v] => .ok (m, p, v)
  | _ => .error ()

/-- `HTTPRequest` (http_server.py, lines 10-16); header keys were
lower-cased by the parser, values stripped. -/
structure HTTPReq where
  method : String
  path : String
  version : String
  headers : List (String × String)
  body : List Nat

/-- `HTTPResponse` (http_server.py, lines 19-24); the header mapping is an
insertion-ordered association list with unique keys, like a Python dict. -/
structure HTTPResponse where
  code : Nat
  message : String
  headers : List (String × String)
  body : Option (List Nat)

/-- Python `k in dict`. -/
def hasKey (hs : List (String × String)) (k : String) : Bool :=
  hs.any (fun p => p.1 == k)

/-- Python `dict.pop(k, None)`. -/
def removeKey (hs : List (String × String)) (k : String) : List (String × String) :=
  hs.filter (fun p => p.1 != k)

/-- Python `dict.get(k)`. -/
def lookupKey (hs : List (String × String)) (k : String) : Option String :=
  (hs.find? (fun p => p.1 == k)).map (fun p => p.2)

/-- latin-1 encoding of the (ASCII) strings the server emits. -/
def strBytes (s : String) : List Nat := s.data.map (fun c => c.toNat)

/-- Python `f'\x7bn:x\x7d'`: lowercase hexadecimal digits of `n`. -/
def hexStr (n : Nat) : String := String.mk (Nat.toDigits 16 n)

/-- The header-mapping adjustment at the top of `_send_response`
(http_server.py, lines 171-177): in chunked mode, when no
`Transfer-Encoding` key is present, set it to `chunked` and drop
`Content-Length`; otherwise, when a body exists and no `Content-Length`
key is present, set it to the body length. -/
def respHeadersAdjusted (chunked : Bool) (resp : HTTPResponse) :
    List (String × String) :=
  if chunked ∧ hasKey resp.headers "Transfer-Encoding" = false then
    removeKey (resp.headers ++ [("Transfer-Encoding", "chunked")]) "Content-Length"
  else if resp.body ≠ none ∧ hasKey resp.headers "Content-Length" = false then
    resp.headers ++ [("Content-Length", toString (resp.body.getD []).length)]
  else resp.headers

/-- The `'k: v\r\n'` header lines of `_send_response` (lines 180-181). -/
def headerLinesStr : List (String × String) → String
  | [] => ""
  | (k, v) :: rest => k ++ ": " ++ v ++ "\r\n" ++ headerLinesStr rest

/-- `_send_response` (http_server.py, lines 170-191): every byte written to
the socket for one response, given the server's `chunked` flag.  A `none`
or empty body is falsy in Python, so nothing follows the header block for
it in plain mode and only the terminating zero-length chunk follows in
chunked mode. -/
def sendResponse (chunked : Bool) (resp : HTTPResponse) : List Nat :=
  let hs := respHeadersAdjusted chunked resp
  let body := resp.body.getD []
  strBytes ("HTTP/1.1 " ++ toString resp.code ++ " " ++ resp.message ++ "\r\n"
      ++ headerLinesStr hs ++ "\r\n") ++
    (if chunked then
      (if body ≠ [] then
        strBytes (hexStr body.length ++ "\r\n") ++ body ++ strBytes "\r\n"
      else []) ++ strBytes "0\r\n\r\n"
    else body)

/-- `_send_error` (http_server.py, lines 193-195). -/
def sendError (chunked : Bool) (code : Nat) (message : String) : List Nat :=
  sendResponse chunked ⟨code, message, [], some (strBytes message)⟩

/-- Outcome of one iteration of the `_handle_conn` request loop: the
responses written to the socket and whether the loop then returns
(closing the connection in the `finally` block). -/
structure ConnStepResult where
  sent : List (List Nat)
  close : Bool

/-- One iteration of the `HTTPServer._handle_conn` loop (http_server.py,
lines 96-116), starting from the outcome of the parse attempt: on a parse
error, send a 400 `Bad Request` and return; on a parsed request `req`
whose (built-in or external) handler produced `resp`, apply the
override-status-code fault, send the response, and return iff the
request's `connection` header equals `close` after lower-casing. -/
def handleConnStep (errorCode : Nat) (chunked : Bool)
    (parsed : Except String (HTTPReq × HTTPResponse)) : ConnStepResult :=
  match parsed with
  | .error _ => ⟨[sendError chunked 400 "Bad Request"], true⟩
  | .ok (req, resp) =>
    let resp := if errorCode > 0 ∧ errorCode ≠ 200 then
        { resp with code := errorCode } else resp
    ⟨[sendResponse chunked resp],
     ((lookupKey req.headers "connection").getD "").toLower == "close"⟩

/-- `_default_handle` (http_server.py, lines 197-203). -/
def reqHeaderLines : List (String × String) → String
  | [] => ""
  | (k, v) :: rest => k ++ ": " ++ v ++ "\n" ++ reqHeaderLines rest

/-- `HTTPServer._default_handle` (http_server.py, lines 197-203). -/
def defaultHandle (req : HTTPReq) : HTTPResponse :=
  if req.path == "/healthz" then
    ⟨200, "OK", [("Content-Type", "text/plain")], some (strBytes "ok\n")⟩
  else
    ⟨200, "OK", [("Content-Type", "text/plain")],
     some (strBytes ("Method: " ++ req.method ++ "\nPath: " ++ req.path
       ++ "\nVersion: " ++ req.version ++ "\n" ++ reqHeaderLines req.headers))⟩

/-! ## UDP datagram handler (udp_server.py). -/

/-- `UDPServer._handle_packet` (udp_server.py, lines 39-54).  `dropRate`
is the configured drop probability and `rand` the `random.random()` draw,
both rationals here; `handler` the optional external handler; the result
is the reply datagram, `none` when nothing is sent back.  The `delay`
sleep only affects timing and is not modelled. -/
def udpHandlePacket (dropRate rand : ℚ) (handler : Option (List Nat → List Nat))
    (data : List Nat) : Option (List Nat) :=
  if dropRate > 0 ∧ rand < dropRate then none
  else
    let response := match handler with
      | some h => h data
      | none => data
    if response ≠ [] then some response else none

/-! ## Helper lemmas for the request-line split -/

lemma splitFirstSpace_nil : splitFirstSpace [] = none := rfl

lemma splitFirstSpace_cons (c : Char) (rest : List Char) :
    splitFirstSpace (c :: rest) =
      if c = ' ' then some ([], rest)
      else
        match splitFirstSpace rest with
        | none => none
        | some (a, b) => some (c :: a, b) := rfl

lemma splitFirstSpace_eq_none {l : List Char} :
    splitFirstSpace l = none ↔ ' ' ∉ l := by
  induction l with
  | nil => simp [splitFirstSpace_nil]
  | cons c rest ih =>
    rw [splitFirstSpace_cons]
    by_cases hc : c = ' '
    · subst hc
      simp
    · rw [if_neg hc]
      cases h : splitFirstSpace rest with
      | none =>
        have hrest : ' ' ∉ rest := ih.mp h
        simp only [List.mem_cons]
        constructor
        · intro _ hmem
          rcases hmem with h1 | h2
          · exact hc h1.symm
          · exact hrest h2
        · intro _
          trivial
      | some ab =>
        obtain ⟨a, b⟩ := ab
        have hrest : ' ' ∈ rest := by
          by_contra hn
          rw [ih.mpr hn] at h
          cases h
        simp only [List.mem_cons]
        constructor
        · intro hfalse
          cases hfalse
        · intro hmem
          exact absurd (Or.inr hrest) hmem

lemma splitFirstSpace_some {l : List Char} :
    ∀ {a b : List Char}, splitFirstSpace l = some (a, b) →
      l = a ++ ' ' :: b ∧ ' ' ∉ a := by
  induction l with
  | nil =>
    intro a b h
    rw [splitFirstSpace_nil] at h
    cases h
  | cons c rest ih =>
    intro a b h
    rw [splitFirstSpace_cons] at h
    by_cases hc : c = ' '
    · subst hc
      rw [if_pos rfl] at h
      simp only [Option.some.injEq, Prod.mk.injEq] at h
      obtain ⟨ha, hb⟩ := h
      subst ha
      subst hb
      simp
    · rw [if_neg hc] at h
      cases hrec : splitFirstSpace rest with
      | none =>
        rw [hrec] at h
        cases h
      | some ab =>
        obtain ⟨a0, b0⟩ := ab
        rw [hrec] at h
        simp only [Option.some.injEq, Prod.mk.injEq] at h
        obtain ⟨ha, hb⟩ := h
        obtain ⟨hl, hna⟩ := ih hrec
        subst hb
        rw [← ha, hl]
        refine ⟨by simp, ?_⟩
        simp only [List.mem_cons]
        rintro (h1 | h2)
        · exact hc h1.symm
        · exact hna h2

lemma splitFirstSpace_append (a b : List Char) (h : ' ' ∉ a) :
    splitFirstSpace (a ++ ' ' :: b) = some (a, b) := by
  induction a with
  | nil =>
    simp [splitFirstSpace_cons]
  | cons c rest ih =>
    simp only [List.mem_cons] at h
    push_neg at h
    have hc : ¬c = ' ' := fun hce => h.1 hce.symm
    rw [List.cons_append, splitFirstSpace_cons, if_neg hc, ih h.2]

/-- **C1** (corrected). The MQTT remaining-length round-trip: encoding any
value `n` with the loop of `_build_packet` and feeding the bytes to the
length loop of `_read_packet` yields `n` back, and the decoder stops
consuming exactly at the first byte with a clear continuation bit, leaving
`rest` untouched.  This holds for all of `[0, 268435455]` — and, because
the decoder imposes no 4-byte limit, for every larger value as well. -/
theorem C1_remaining_length_roundtrip (n : Nat) (rest : List Nat) :
    decodeRemLen (encodeRemLen n ++ rest) 0 1 = some (n, rest) := by
  have h := decodeRemLen_encodeRemLen n 0 1 rest
  simpa using h

/-- **C1** counterexample to the claim as stated: the decoder does not
reject an encoding of more than 4 length bytes.  The value
`268435456 = 268435455 + 1` encodes to five bytes, and the decoder
accepts those five bytes and returns the out-of-range value instead of
rejecting them. -/
theorem C1_counterexample :
    encodeRemLen 268435456 = [128, 128, 128, 128, 1] ∧
    decodeRemLen [128, 128, 128, 128, 1] 0 1 = some (268435456, []) ∧
    268435455 < 268435456 := by
  refine ⟨?_, by decide, by decide⟩
  simp [encodeRemLen]

/-- **C2** (corrected).  A packet whose payload is truncated inside a
length-prefixed string field is handled defensively — no session-table
change, no retained-message change, no callback, no reply, no exception:
this covers the leading string (protocol name for CONNECT, topic for
PUBLISH) and also a CONNECT truncated inside the client-identifier string
(its length prefix or body).  A CONNECT payload truncated at a
fixed-width field instead raises: ending before the protocol-level or the
connect-flags byte raises `IndexError`, and ending inside the 2-byte
keep-alive raises `struct.error`; likewise a PUBLISH with QoS > 0 ending
before the 2-byte packet identifier raises `struct.error`.  These
exceptions escape `_handle_packet` (the enclosing loop catches only
socket-level errors), so the connection is closed rather than kept
open. -/
theorem C2_truncated_packets (hasCb retain hasPub : Bool) (conn : Nat)
    (clients : List Nat → Option Nat) (retained : List Nat → Option (List Nat))
    (payload : List Nat) (flags : Nat) :
    ((readMqttStr payload 0).1 = none →
      handleConnect hasCb conn clients payload = .ok ⟨clients, none, []⟩ ∧
      handlePublish retain hasPub retained flags payload = .ok ⟨retained, [], none⟩) ∧
    (∀ s pos, readMqttStr payload 0 = (some s, pos) →
      payload.length < pos + 2 →
      handleConnect hasCb conn clients payload = .error .indexError) ∧
    (∀ s pos, readMqttStr payload 0 = (some s, pos) →
      pos + 2 ≤ payload.length → payload.length < pos + 4 →
      handleConnect hasCb conn clients payload = .error .structError) ∧
    (∀ s pos, readMqttStr payload 0 = (some s, pos) →
      pos + 4 ≤ payload.length →
      (readMqttStr payload (pos + 4)).1 = none →
      handleConnect hasCb conn clients payload = .ok ⟨clients, none, []⟩) ∧
    (∀ s pos, readMqttStr payload 0 = (some s, pos) →
      (flags >>> 1) &&& 0x03 > 0 → payload.length < pos + 2 →
      handlePublish retain hasPub retained flags payload = .error .structError) := by
  refine ⟨?_, ?_, ?_, ?_, ?_⟩
  · intro h
    rcases hr : readMqttStr payload 0 with ⟨o, p⟩
    rw [hr] at h
    simp only at h
    subst h
    constructor
    · simp [handleConnect, hr]
    · simp [handlePublish, hr]
  · intro s pos hr hlen
    cases e1 : payload[pos]? with
    | none =>
      simp [handleConnect, hr, e1]
    | some b1 =>
      have e2 : payload[pos + 1]? = none := List.getElem?_eq_none (by omega)
      simp [handleConnect, hr, e1, e2]
  · intro s pos hr h2 h4
    cases e1 : payload[pos]? with
    | none =>
      have := List.getElem?_eq_none_iff.mp e1
      omega
    | some b1 =>
      cases e2 : payload[pos + 1]? with
      | none =>
        have := List.getElem?_eq_none_iff.mp e2
        omega
      | some b2 =>
        simp only [handleConnect, hr, e1, e2]
        rw [if_pos (by omega)]
  · intro s pos hr h4 hcid
    rcases hc : readMqttStr payload (pos + 4) with ⟨o, p2⟩
    rw [hc] at hcid
    simp only at hcid
    subst hcid
    cases e1 : payload[pos]? with
    | none =>
      have := List.getElem?_eq_none_iff.mp e1
      omega
    | some b1 =>
      cases e2 : payload[pos + 1]? with
      | none =>
        have := List.getElem?_eq_none_iff.mp e2
        omega
      | some b2 =>
        simp only [handleConnect, hr, e1, e2]
        rw [if_neg (by omega)]
        have hc4 : readMqttStr payload (pos + 1 + 1 + 2) = (none, p2) := by
          rw [show pos + 1 + 1 + 2 = pos + 4 by omega]
          exact hc
        simp only [hc4]
  · intro s pos hr hq hlen
    simp only [handlePublish, hr]
    rw [if_pos hq, if_pos hlen]

lemma pySplitSpace_succ (s : List Char) (n : Nat) :
    pySplitSpace s (n + 1) =
      match splitFirstSpace s with
      | none => [s]
      | some (a, b) => a :: pySplitSpace b n := rfl

lemma parseRequestLine_ok_iff (line : List Char) :
    (∃ m p v, parseRequestLine line = .ok (m, p, v)) ↔ 2 ≤ line.count ' ' := by
  cases h1 : splitFirstSpace line with
  | none =>
    have hno : ' ' ∉ line := splitFirstSpace_eq_none.mp h1
    have hc : line.count ' ' = 0 := by
      simpa using List.count_eq_zero.mpr hno
    have hps : pySplitSpace line 2 = [line] := by
      show pySplitSpace line (1 + 1) = [line]
      rw [pySplitSpace_succ, h1]
    simp only [parseRequestLine, hps, hc]
    constructor
    · rintro ⟨m, p, v, hfalse⟩
      cases hfalse
    · omega
  | some ab =>
    obtain ⟨a, b⟩ := ab
    obtain ⟨hl, hna⟩ := splitFirstSpace_some h1
    cases h2 : splitFirstSpace b with
    | none =>
      have hnb : ' ' ∉ b := splitFirstSpace_eq_none.mp h2
      have hps : pySplitSpace line 2 = [a, b] := by
        show pySplitSpace line (1 + 1) = [a, b]
        rw [pySplitSpace_succ, h1]
        show a :: pySplitSpace b (0 + 1) = [a, b]
        rw [pySplitSpace_succ, h2]
      have hcl : line.count ' ' = 1 := by
        rw [hl]
        simp [List.count_append, List.count_cons,
          List.count_eq_zero.mpr hna, List.count_eq_zero.mpr hnb]
      simp only [parseRequestLine, hps, hcl]
      constructor
      · rintro ⟨m, p, v, hfalse⟩
        cases hfalse
      · omega
    | some cd =>
      obtain ⟨c, d⟩ := cd
      obtain ⟨hlb, hnc⟩ := splitFirstSpace_some h2
      have hps : pySplitSpace line 2 = [a, c, d] := by
        show pySplitSpace line (1 + 1) = [a, c, d]
        rw [pySplitSpace_succ, h1]
        show a :: pySplitSpace b (0 + 1) = [a, c, d]
        rw [pySplitSpace_succ, h2]
        rfl
      have hcl : 2 ≤ line.count ' ' := by
        rw [hl, hlb]
        simp only [List.count_append, List.count_cons_self]
        omega
      simp only [parseRequestLine, hps]
      exact ⟨fun _ => hcl, fun _ => ⟨a, c, d, rfl⟩⟩

/-- **C3** (corrected).  The request line is a framing error iff it holds
fewer than two space characters; with at least two spaces it is always
accepted, split at the first two spaces — method and path take the
space-free pieces and the version keeps everything that follows, spaces
included.  On a framing error the handler sends a 400 `Bad Request` and
closes the connection. -/
theorem C3_request_line (line m p v : List Char) (ec : Nat) (ch : Bool)
    (msg : String) (hm : ' ' ∉ m) (hp : ' ' ∉ p) :
    ((∃ m0 p0 v0, parseRequestLine line = .ok (m0, p0, v0)) ↔ 2 ≤ line.count ' ') ∧
    parseRequestLine (m ++ ' ' :: (p ++ ' ' :: v)) = .ok (m, p, v) ∧
    handleConnStep ec ch (.error msg) = ⟨[sendError ch 400 "Bad Request"], true⟩ := by
  refine ⟨parseRequestLine_ok_iff line, ?_, rfl⟩
  have h1 : splitFirstSpace (m ++ ' ' :: (p ++ ' ' :: v)) = some (m, p ++ ' ' :: v) :=
    splitFirstSpace_append m _ hm
  have h2 : splitFirstSpace (p ++ ' ' :: v) = some (p, v) :=
    splitFirstSpace_append p v hp
  have hps : pySplitSpace (m ++ ' ' :: (p ++ ' ' :: v)) 2 = [m, p, v] := by
    show pySplitSpace (m ++ ' ' :: (p ++ ' ' :: v)) (1 + 1) = [m, p, v]
    rw [pySplitSpace_succ, h1]
    show m :: pySplitSpace (p ++ ' ' :: v) (0 + 1) = [m, p, v]
    rw [pySplitSpace_succ, h2]
    rfl
  simp only [parseRequestLine, hps]

/-- **C3** counterexample to the claim as stated: a request line with
three separating spaces is accepted (the version keeps the extra text),
and a line with two adjacent spaces is accepted with an empty path —
neither is the framing error the claim requires. -/
theorem C3_counterexample :
    parseRequestLine ("GET /x HTTP/1.1 extra".data) =
      .ok ("GET".data, "/x".data, "HTTP/1.1 extra".data) ∧
    ("GET /x HTTP/1.1 extra".data).count ' ' = 3 ∧
    parseRequestLine ("GET  /x HTTP/1.1".data) =
      .ok ("GET".data, [], "/x HTTP/1.1".data) :=
  ⟨rfl, rfl, rfl⟩

/-- Witness for `C3_request_line` at a concrete well-formed request
line. -/
theorem C3_request_line_witness :
    ((∃ m0 p0 v0, parseRequestLine ("GET / HTTP/1.1".data) = .ok (m0, p0, v0)) ↔
      2 ≤ ("GET / HTTP/1.1".data).count ' ') ∧
    parseRequestLine ("GET".data ++ ' ' :: ("/".data ++ ' ' :: "HTTP/1.1".data)) =
      .ok ("GET".data, "/".data, "HTTP/1.1".data) ∧
    handleConnStep 503 false (.error "bad") =
      ⟨[sendError false 400 "Bad Request"], true⟩ :=
  C3_request_line ("GET / HTTP/1.1".data) ("GET".data) ("/".data) ("HTTP/1.1".data)
    503 false "bad" (by decide) (by decide)

/-- **C4** (corrected).  With `drop_rate = 0.0` and no external handler,
every non-empty inbound datagram produces exactly one reply, equal to its
payload — but an empty datagram is falsy in `if response:`, so it
produces no reply at all, contrary to the claim's "including the empty
payload". -/
theorem C4_udp_echo (rand : ℚ) (data : List Nat) :
    udpHandlePacket 0 rand none data =
      if data.isEmpty then none else some data := by
  rw [udpHandlePacket, if_neg (by simp)]
  cases data with
  | nil => simp
  | cons b rest => simp

/-- **C4** counterexample to the claim as stated: the empty datagram gets
no reply even with `drop_rate = 0.0` and no handler. -/
theorem C4_counterexample :
    udpHandlePacket 0 0 none [] = none := by
  rw [udpHandlePacket, if_neg (by simp)]
  simp

/-- **C2** counterexample to the claim as stated: a CONNECT payload
holding only the (empty) protocol-name string — truncated before the
protocol-level byte — raises `IndexError`, and a PUBLISH with QoS 1 whose
payload ends right after the topic — truncated before the 2-byte packet
identifier — raises `struct.error`; both exceptions escape the handler
(the per-connection loop catches only socket errors), so the connection
is closed, not kept open. -/
theorem C2_counterexample :
    handleConnect false 0 (fun _ => none) [0, 0] = .error .indexError ∧
    handlePublish false false (fun _ => none) 2 [0, 0] = .error .structError :=
  ⟨rfl, rfl⟩

/-- Witness for `C2_truncated_packets`: the one-byte payload `[0]` is
truncated inside the leading string field and is handled defensively. -/
theorem C2_truncated_packets_witness :
    handleConnect false 0 (fun _ => none) [0] = .ok ⟨fun _ => none, none, []⟩ :=
  ((C2_truncated_packets false false false 0 (fun _ => none) (fun _ => none) [0] 0).1 rfl).1

lemma pack16_bytes {p1 p2 : Nat} (_h1 : p1 < 256) (h2 : p2 < 256) :
    pack16 (256 * p1 + p2) = [p1, p2] := by
  simp only [pack16, List.cons.injEq, and_true]
  omega

/-- **C5** (confirmed).  For a well-formed PUBLISH: QoS is bits 1-2 of the
flags and the 2-byte packet identifier is read only when QoS is nonzero;
the payload is stored in the retained map under the topic iff retention
is enabled and the payload is non-empty (all other topics untouched, and
the map untouched otherwise); the publish callback, when configured, is
invoked exactly once with `(topic, qos, payload, packet_id)`; the reply is
nothing for QoS 0, a PUBACK carrying the same packet identifier for
QoS 1, and a PUBREC carrying it for QoS 2. -/
theorem C5_publish_effects (retain hasCb : Bool)
    (retained : List Nat → Option (List Nat))
    (topic msg : List Nat) (flags p1 p2 : Nat) (r : PublishResult)
    (hr : handlePublish retain hasCb retained flags
        (publishPayload topic flags p1 p2 msg) = .ok r)
    (hp1 : p1 < 256) (hp2 : p2 < 256) :
    ((retain = true ∧ msg ≠ []) →
      r.retained topic = some msg ∧ ∀ t, t ≠ topic → r.retained t = retained t) ∧
    (¬(retain = true ∧ msg ≠ []) → ∀ t, r.retained t = retained t) ∧
    r.onPublishCalls =
      (if hasCb then
        [(topic, (flags >>> 1) &&& 0x03, msg,
          if (flags >>> 1) &&& 0x03 > 0 then 256 * p1 + p2 else 0)]
      else []) ∧
    ((flags >>> 1) &&& 0x03 = 0 → r.reply = none) ∧
    ((flags >>> 1) &&& 0x03 = 1 → r.reply = some (buildPacket 4 0 [p1, p2])) ∧
    ((flags >>> 1) &&& 0x03 = 2 → r.reply = some (buildPacket 5 0 [p1, p2])) := by
  rw [handlePublish_publishPayload] at hr
  have hr2 := Except.ok.inj hr
  subst hr2
  refine ⟨?_, ?_, rfl, ?_, ?_, ?_⟩
  · intro hcond
    rw [if_pos hcond]
    exact ⟨by simp, fun t ht => by simp [ht]⟩
  · intro hcond t
    rw [if_neg hcond]
  · intro hq
    simp [hq]
  · intro hq
    simp [hq, pack16_bytes hp1 hp2]
  · intro hq
    simp [hq, pack16_bytes hp1 hp2]

/-- The concrete `PublishResult` of the witness publish: topic `[116]`,
QoS 1, payload `[104]`, packet identifier 7, retention on. -/
def c5r : PublishResult :=
  ⟨fun k => if k = [116] then some [104] else none,
   [([116], 1, [104], 7)],
   some (buildPacket 4 0 (pack16 7))⟩

/-- Witness for `C5_publish_effects` at a concrete QoS-1 publish. -/
theorem C5_publish_effects_witness :
    (0 : Nat) < 256 ∧ (7 : Nat) < 256 ∧
    ((true = true ∧ ([104] : List Nat) ≠ []) →
      c5r.retained [116] = some [104] ∧
        ∀ t, t ≠ [116] → c5r.retained t = none) ∧
    (¬(true = true ∧ ([104] : List Nat) ≠ []) → ∀ t, c5r.retained t = none) ∧
    c5r.onPublishCalls = [([116], 1, [104], 7)] ∧
    ((1 : Nat) = 0 → c5r.reply = none) ∧
    ((1 : Nat) = 1 → c5r.reply = some (buildPacket 4 0 [0, 7])) ∧
    ((1 : Nat) = 2 → c5r.reply = some (buildPacket 5 0 [0, 7])) :=
  ⟨by decide, by decide,
   C5_publish_effects true true (fun _ => none) [116] [104] 2 0 7 c5r rfl
     (by decide) (by decide)⟩

lemma and_two_ne_zero_eq_testBit (n : Nat) :
    ((n &&& 2 != 0) : Bool) = n.testBit 1 := by
  have h := Nat.and_two_pow n 1
  norm_num at h
  rw [h]
  cases n.testBit 1 <;> simp

/-- **C6** (confirmed).  For every well-formed CONNECT — any protocol
name, protocol level, connect-flags byte, keep-alive, and client
identifier — the handler registers the client identifier in the session
table (overwriting any prior entry for it, all other entries untouched),
replies with a CONNACK (packet type 2 in the high nibble of the first
byte) whose 2-byte payload is session-present 0 and return-code 0, and
extracts `clean_session` as bit 1 of the connect flags; the connect is
never rejected. -/
theorem C6_connect_always_accepted (hasCb : Bool) (conn : Nat)
    (clients : List Nat → Option Nat) (proto : List Nat)
    (level cflags k1 k2 : Nat) (cid : List Nat) :
    ∃ r, handleConnect hasCb conn clients
        (connectPayload proto level cflags k1 k2 cid) = .ok r ∧
      r.clients cid = some conn ∧
      (∀ k, k ≠ cid → r.clients k = clients k) ∧
      r.reply = some (buildPacket 2 0 [0, 0]) ∧
      buildPacket 2 0 [0, 0] = [32, 2, 0, 0] ∧
      (32 >>> 4) &&& 0x0F = 2 ∧
      r.onConnectCalls = (if hasCb then [(cid, cflags.testBit 1)] else []) := by
  refine ⟨_, handleConnect_connectPayload hasCb conn clients proto level cflags k1 k2 cid,
    by simp, fun k hk => by simp [hk], rfl, ?_, by decide, ?_⟩
  · have h2 : encodeRemLen ([0, 0] : List Nat).length = [2] := by
      simp [encodeRemLen]
    rw [buildPacket, h2]
    decide
  · rw [and_two_ne_zero_eq_testBit]

/-- **C9** (confirmed).  A well-formed PUBLISH with an empty message
payload, handled with retention enabled, leaves the retained-message map
completely unchanged — in particular an existing retained message for the
topic is neither deleted nor replaced. -/
theorem C9_empty_payload_keeps_retained (hasCb : Bool)
    (retained : List Nat → Option (List Nat)) (topic : List Nat)
    (flags p1 p2 : Nat) :
    ∃ r, handlePublish true hasCb retained flags
        (publishPayload topic flags p1 p2 []) = .ok r ∧
      r.retained = retained ∧ ∀ t, r.retained t = retained t := by
  refine ⟨_, handlePublish_publishPayload true hasCb retained topic flags p1 p2 [],
    ?_, ?_⟩
  · simp
  · intro t
    simp

/-- **C7** (confirmed).  After one successfully parsed request the handler
sends exactly one response, and then closes the connection iff the
request's `connection` header value (default empty) lower-cases to
`close`; with no such header, or any other value, the loop continues on
the same connection. -/
theorem C7_connection_close (ec : Nat) (ch : Bool)
    (req : HTTPReq) (resp : HTTPResponse) :
    (handleConnStep ec ch (.ok (req, resp))).sent.length = 1 ∧
    ((handleConnStep ec ch (.ok (req, resp))).close = true ↔
      ((lookupKey req.headers "connection").getD "").toLower = "close") := by
  constructor
  · rfl
  · simp [handleConnStep]

lemma hasKey_removeKey (hs : List (String × String)) (k : String) :
    hasKey (removeKey hs k) k = false := by
  induction hs with
  | nil => rfl
  | cons p rest ih =>
    cases hbe : (p.1 != k) with
    | false =>
      simpa [removeKey, List.filter_cons, hbe] using ih
    | true =>
      have hne : (p.1 == k) = false := by
        cases hq : p.1 == k
        · rfl
        · rw [bne, hq] at hbe
          cases hbe
      simp only [removeKey, List.filter_cons, hbe, if_pos]
      simp only [hasKey, List.any_cons, hne, Bool.false_or]
      simp only [removeKey, hasKey] at ih
      exact ih

lemma lookupKey_removeKey_append (hs : List (String × String)) (v : String)
    (hkey : hasKey hs "Transfer-Encoding" = false) :
    lookupKey (removeKey (hs ++ [("Transfer-Encoding", v)]) "Content-Length")
      "Transfer-Encoding" = some v := by
  induction hs with
  | nil => rfl
  | cons p rest ih =>
    have hp : (p.1 == "Transfer-Encoding") = false := by
      simp only [hasKey, List.any_cons, Bool.or_eq_false_iff] at hkey
      exact hkey.1
    have hrest : hasKey rest "Transfer-Encoding" = false := by
      simp only [hasKey, List.any_cons, Bool.or_eq_false_iff] at hkey
      exact hkey.2
    cases hbe : (p.1 != "Content-Length") with
    | false =>
      simpa [removeKey, List.filter_cons, hbe] using ih hrest
    | true =>
      simp only [List.cons_append, removeKey, List.filter_cons, hbe, if_pos]
      simp only [lookupKey, List.find?_cons, hp]
      simpa [removeKey, lookupKey] using ih hrest

/-- **C8** (corrected, amended part).  When the handler's response does
not already carry a `Transfer-Encoding` header key, chunked mode sets
`Transfer-Encoding: chunked`, drops any `Content-Length`, and puts the
body on the wire as one hex-length-prefixed chunk (when non-empty)
followed by the terminating zero-length chunk. -/
theorem C8_chunked_response (resp : HTTPResponse)
    (h : hasKey resp.headers "Transfer-Encoding" = false) :
    lookupKey (respHeadersAdjusted true resp) "Transfer-Encoding" = some "chunked" ∧
    hasKey (respHeadersAdjusted true resp) "Content-Length" = false ∧
    sendResponse true resp =
      strBytes ("HTTP/1.1 " ++ toString resp.code ++ " " ++ resp.message ++ "\r\n"
          ++ headerLinesStr (respHeadersAdjusted true resp) ++ "\r\n") ++
        ((if resp.body.getD [] ≠ [] then
            strBytes (hexStr (resp.body.getD []).length ++ "\r\n") ++
              resp.body.getD [] ++ strBytes "\r\n"
          else []) ++ strBytes "0\r\n\r\n") := by
  have hadj : respHeadersAdjusted true resp =
      removeKey (resp.headers ++ [("Transfer-Encoding", "chunked")]) "Content-Length" := by
    rw [respHeadersAdjusted, if_pos ⟨rfl, h⟩]
  refine ⟨?_, ?_, rfl⟩
  · rw [hadj]
    exact lookupKey_removeKey_append resp.headers "chunked" h
  · rw [hadj]
    exact hasKey_removeKey _ _

/-- The request of the `GET /` chunked-mode scenario. -/
def getRootReq : HTTPReq := ⟨"GET", "/", "HTTP/1.1", [("host", "localhost")], []⟩

/-- Witness for `C8_chunked_response`: the built-in handler's `GET /`
response has no `Transfer-Encoding` key, and in chunked mode it goes out
with `Transfer-Encoding: chunked`. -/
theorem C8_chunked_response_witness :
    lookupKey (respHeadersAdjusted true (defaultHandle getRootReq))
      "Transfer-Encoding" = some "chunked" :=
  (C8_chunked_response (defaultHandle getRootReq) rfl).1

/-- The response used in the **C8** counterexample: a pluggable handler
response that already carries a `Transfer-Encoding` key. -/
def c8resp : HTTPResponse :=
  ⟨200, "OK", [("Transfer-Encoding", "identity"), ("Content-Length", "1")],
   some [120]⟩

/-- **C8** counterexample to the claim as stated: when the handler's
response already carries a `Transfer-Encoding` key, chunked mode neither
sets it to `chunked` nor removes `Content-Length`, so the serialized
response carries `Transfer-Encoding: identity` and a `Content-Length`
header while its body still goes out chunk-encoded. -/
theorem C8_counterexample :
    respHeadersAdjusted true c8resp =
      [("Transfer-Encoding", "identity"), ("Content-Length", "1")] ∧
    lookupKey (respHeadersAdjusted true c8resp) "Transfer-Encoding" =
      some "identity" ∧
    hasKey (respHeadersAdjusted true c8resp) "Content-Length" = true ∧
    sendResponse true c8resp =
      strBytes ("HTTP/1.1 200 OK\r\nTransfer-Encoding: identity\r\n"
        ++ "Content-Length: 1\r\n\r\n1\r\n") ++ [120] ++ strBytes "\r\n0\r\n\r\n" :=
  ⟨rfl, rfl, rfl, rfl⟩

/-- **C10** (confirmed).  On a parse error the synthesized error response
goes out with status 400 for every configured override status code — the
serialized status line is `HTTP/1.1 400 Bad Request` regardless of
`error_code` — and the connection is then closed; the override rewrites
only responses of successfully parsed requests. -/
theorem C10_parse_error_is_400 (ec : Nat) (ch : Bool) (msg : String)
    (req : HTTPReq) (resp : HTTPResponse) :
    (∃ out, (handleConnStep ec ch (.error msg)).sent = [out] ∧
      (handleConnStep ec ch (.error msg)).close = true ∧
      out.take 26 = strBytes "HTTP/1.1 400 Bad Request\r\n") ∧
    (handleConnStep ec ch (.ok (req, resp))).sent =
      [sendResponse ch (if ec > 0 ∧ ec ≠ 200 then { resp with code := ec } else resp)] := by
  refine ⟨⟨sendError ch 400 "Bad Request", rfl, rfl, ?_⟩, rfl⟩
  cases ch
  · rfl
  · rfl

end YourTestSrv
